import Mathlib

/-!
# CCylinder (mrpt/opengl/CCylinder.h): parameter store and axial accessors

A shallow embedding of the inline members of `mrpt::opengl::CCylinder`.

Modelling conventions
* `float` members and arguments are exact rationals (`ℚ`); rounding is outside the model.
  A `float` division is total on the machine but has no exact value when its divisor is
  zero, so division is embedded as the guarded `fdiv`, whose error branch records a zero
  divisor, and a computed `float` is an `Except ArithError ℚ`.
* Where rounding matters, `getRadius32` is the same member with every `float` operation of
  line 185 rounded to binary32 (IEEE 754 single precision, round to nearest, ties to even,
  gradual underflow); its operands are binary32 values, and overflow is outside the model.
* `uint32_t` members are naturals kept below `2 ^ 32`; the `int -> uint32_t` conversion of
  the constructor is the explicit reduction modulo `2 ^ 32`.
* A `float &r` output parameter is passed in and returned: `getRadius` maps the caller's
  `r` to the pair (returned flag, value of `r` after the call).  The flag is returned
  whatever the arithmetic does, as in the source.
* `render` and `traceRay` are only declared in the header.  Their bodies are modelled from
  the component design of the specification (sections 4.2 and 4.3).  Angles are exact
  fractions of a full turn, so mesh vertices are kept in cylindrical coordinates; the
  square root used by the quadratic solver is a parameter of the ray intersector.
-/

namespace mrpt.opengl

/-- Arithmetic faults of the exact-arithmetic reading of `float` code. -/
inductive ArithError where
  | divByZero
  deriving DecidableEq, Repr

/-- Exact division `a / b`, guarded: a zero divisor has no exact quotient. -/
def fdiv (a b : ℚ) : Except ArithError ℚ :=
  if b = 0 then Except.error ArithError.divByZero else Except.ok (a / b)

/-- Conversion of a C++ `int` to `uint32_t`: reduction modulo `2 ^ 32`. -/
def toUInt32 (i : Int) : Nat :=
  (i % (2 ^ 32 : Int)).toNat

/-- The data members of `CCylinder` (lines 54-66). -/
structure CCylinder where
  mBaseRadius : ℚ
  mTopRadius : ℚ
  mHeight : ℚ
  mSlices : Nat
  mStacks : Nat
  mHasTopBase : Bool
  mHasBottomBase : Bool
  deriving DecidableEq, Repr

namespace CCylinder

/-- Complete constructor (line 175): both bases are enabled, the `int` counts are
converted to `uint32_t`. -/
def mk5 (baseRadius topRadius height : ℚ) (slices nstacks : Int) : CCylinder :=
  { mBaseRadius := baseRadius
    mTopRadius := topRadius
    mHeight := height
    mSlices := toUInt32 slices
    mStacks := toUInt32 nstacks
    mHasTopBase := true
    mHasBottomBase := true }

/-- Factory `Create` (lines 71-73) with all five arguments given. -/
def Create (baseRadius topRadius height : ℚ) (slices nstacks : Int) : CCylinder :=
  mk5 baseRadius topRadius height slices nstacks

/-- Call `Create(baseRadius, topRadius, height, slices)`: `stacks` takes its default `10`. -/
def Create4 (baseRadius topRadius height : ℚ) (slices : Int) : CCylinder :=
  Create baseRadius topRadius height slices 10

/-- Call `Create(baseRadius, topRadius, height)`: `slices` and `stacks` take their
defaults `10` and `10`. -/
def Create3 (baseRadius topRadius height : ℚ) : CCylinder :=
  Create baseRadius topRadius height 10 10

/-- Call `Create(baseRadius, topRadius)`: `height`, `slices` and `stacks` take their
defaults `1`, `10` and `10`. -/
def Create2 (baseRadius topRadius : ℚ) : CCylinder :=
  Create baseRadius topRadius 1 10 10

/-- Member `setHasBases(top, bottom)` (lines 86-89). -/
def setHasBases (c : CCylinder) (top bottom : Bool) : CCylinder :=
  { c with mHasTopBase := top, mHasBottomBase := bottom }

/-- Member `hasTopBase` (lines 94-96). -/
def hasTopBase (c : CCylinder) : Bool := c.mHasTopBase

/-- Member `hasBottomBase` (lines 101-103). -/
def hasBottomBase (c : CCylinder) : Bool := c.mHasBottomBase

/-- Member `setRadius(radius)` (lines 108-110): `mBaseRadius=mTopRadius=radius`. -/
def setRadius (c : CCylinder) (radius : ℚ) : CCylinder :=
  { c with mTopRadius := radius, mBaseRadius := radius }

/-- Member `setRadii(bottom, top)` (lines 115-118). -/
def setRadii (c : CCylinder) (bottom top : ℚ) : CCylinder :=
  { c with mBaseRadius := bottom, mTopRadius := top }

/-- Member `setHeight(height)` (lines 122-124). -/
def setHeight (c : CCylinder) (height : ℚ) : CCylinder :=
  { c with mHeight := height }

/-- Member `getBottomRadius` (lines 128-130). -/
def getBottomRadius (c : CCylinder) : ℚ := c.mBaseRadius

/-- Member `getTopRadius` (lines 134-136). -/
def getTopRadius (c : CCylinder) : ℚ := c.mTopRadius

/-- Member `getHeight` (lines 140-142). -/
def getHeight (c : CCylinder) : ℚ := c.mHeight

/-- Member `setSlicesCount(slices)` (lines 146-148); the argument is a `uint32_t`. -/
def setSlicesCount (c : CCylinder) (slices : Nat) : CCylinder :=
  { c with mSlices := slices % 2 ^ 32 }

/-- Member `setStacksCount(stacks)` (lines 152-154); the argument is a `uint32_t`. -/
def setStacksCount (c : CCylinder) (nstacks : Nat) : CCylinder :=
  { c with mStacks := nstacks % 2 ^ 32 }

/-- Member `getSlicesCount` (lines 158-160). -/
def getSlicesCount (c : CCylinder) : Nat := c.mSlices

/-- Member `getStacksCount` (lines 164-166). -/
def getStacksCount (c : CCylinder) : Nat := c.mStacks

/-- Member `reachesHeight(Z)` (lines 191-193):
`(mHeight<0)?(Z>=mHeight&&Z<=0):(Z<=mHeight&&Z>=0)`. -/
def reachesHeight (c : CCylinder) (Z : ℚ) : Bool :=
  if c.mHeight < 0 then (decide (Z ≥ c.mHeight) && decide (Z ≤ 0))
  else (decide (Z ≤ c.mHeight) && decide (Z ≥ 0))

/-- Member `getRadius(Z, r)` (lines 183-187).  The result is the returned flag together
with the value of the output parameter `r` after the call; the error branch is the
division `Z/mHeight` met with a zero divisor, which leaves `r` without an exact value. -/
def getRadius (c : CCylinder) (Z r : ℚ) : Bool × Except ArithError ℚ :=
  if !c.reachesHeight Z then (false, Except.ok r)
  else
    (true,
      match fdiv Z c.mHeight with
      | Except.error e => Except.error e
      | Except.ok q => Except.ok (q * (c.mTopRadius - c.mBaseRadius) + c.mBaseRadius))

/-- Modelled from the spec: the radius formula of section 3, used by the bodies of `render`
and `traceRay`, which are not in the header:
`r(Z) = baseRadius + (Z/height) * (topRadius - baseRadius)`. -/
def radiusAt (c : CCylinder) (Z : ℚ) : Except ArithError ℚ :=
  match fdiv Z c.mHeight with
  | Except.error e => Except.error e
  | Except.ok q => Except.ok (c.mBaseRadius + q * (c.mTopRadius - c.mBaseRadius))

/-- Modelled from the spec: the sign of the height used by the cap normals of section 4.2,
step 5, in the missing body of `render`. -/
def heightSign (c : CCylinder) : ℚ :=
  if c.mHeight < 0 then -1 else if c.mHeight = 0 then 0 else 1

end CCylinder

/-- Modelled from the spec: a vertex emitted by the missing body of `render` (section 4.2),
in cylindrical coordinates.  The position `(r cos θ, r sin θ, Z)` is stored as the ring
radius `r`, the angle `θ` as a fraction of a full turn, and `Z`; the normal direction
`(n cos θ, n sin θ, a)` before normalisation as its radial part `n` and axial part `a`.
A coordinate obtained by a division with a zero divisor has no exact value. -/
structure MeshVertex where
  radius : Except ArithError ℚ
  turn : Except ArithError ℚ
  z : Except ArithError ℚ
  normalRadial : ℚ
  normalAxial : Except ArithError ℚ

/-- Modelled from the spec: the vertices emitted by the missing body of `render`
(section 4.2): the lateral rings, and the ring of each cap fan. -/
structure Mesh where
  lateral : List MeshVertex
  bottomCap : List MeshVertex
  topCap : List MeshVertex

/-- Modelled from the spec: a ray in the local frame of the primitive (section 4.3), the
argument of the missing body of `traceRay`: origin `O` and direction `D`. -/
structure Ray where
  ox : ℚ
  oy : ℚ
  oz : ℚ
  dx : ℚ
  dy : ℚ
  dz : ℚ

namespace CCylinder

/-- Modelled from the spec: section 4.2, step 1 of the missing body of `render`: the axial
coordinate `Z_k` of step `k` of the `stackCount` equal steps of `[0, height]`. -/
def axialStep (c : CCylinder) (k : Nat) : Except ArithError ℚ :=
  fdiv (c.mHeight * (k : ℚ)) (c.mStacks : ℚ)

/-- Modelled from the spec: section 4.2, step 1 of the missing body of `render`: the angle
`θ_i` of step `i` of the `sliceCount` equal steps of the turn, as a fraction of the turn. -/
def angularStep (c : CCylinder) (i : Nat) : Except ArithError ℚ :=
  fdiv (i : ℚ) (c.mSlices : ℚ)

/-- Modelled from the spec: section 4.2, steps 1, 2 and 4 of the missing body of `render`.
The vertex of axial step `k` and angular step `i`: the position is on the ring of radius
`r(Z_k)` at angle `θ_i` and height `Z_k`, and the normal direction is
`(cos θ_i, sin θ_i, -(topRadius-baseRadius)/height)`. -/
def lateralVertex (c : CCylinder) (k i : Nat) : MeshVertex :=
  { radius :=
      match c.axialStep k with
      | Except.error e => Except.error e
      | Except.ok Z => c.radiusAt Z
    turn := c.angularStep i
    z := c.axialStep k
    normalRadial := 1
    normalAxial :=
      match fdiv (c.mTopRadius - c.mBaseRadius) c.mHeight with
      | Except.error e => Except.error e
      | Except.ok q => Except.ok (-q) }

/-- Modelled from the spec: section 4.2, steps 1 and 2 of the missing body of `render`:
the rings `k = 0 .. stackCount`, each of `sliceCount` vertices.  The stored counts are used
as they are: the reference accepts small counts silently (section 7), and the clamp of
step 6 is the hardening that section 7 recommends for a reimplementation. -/
def lateralVertices (c : CCylinder) : List MeshVertex :=
  (List.range (c.mStacks + 1)).flatMap fun k =>
    (List.range c.mSlices).map fun i => c.lateralVertex k i

/-- Modelled from the spec: section 4.2, step 5 of the missing body of `render`: the
vertex of angular step `i` on the ring of a cap at axial coordinate `Z`, with normal
`(0, 0, normalZ)`. -/
def capVertex (c : CCylinder) (Z normalZ : ℚ) (i : Nat) : MeshVertex :=
  { radius := c.radiusAt Z
    turn := c.angularStep i
    z := Except.ok Z
    normalRadial := 0
    normalAxial := Except.ok normalZ }

/-- Modelled from the spec: section 4.2, step 5 of the missing body of `render`: the ring
of a cap fan at axial coordinate `Z` with axial normal `normalZ`; the fan has no centre
vertex (the convention of the vertex-count formula of section 8). -/
def capRing (c : CCylinder) (Z normalZ : ℚ) : List MeshVertex :=
  (List.range c.mSlices).map fun i => c.capVertex Z normalZ i

/-- Modelled from the spec: the vertices emitted by `render`, whose body is not in the
header (section 4.2): the lateral rings, the bottom fan at `Z = 0` with normal
`(0,0,-sign(height))` when `hasBottomBase`, and the top fan at `Z = height` with the
opposite normal when `hasTopBase`. -/
def render (c : CCylinder) : Mesh :=
  { lateral := c.lateralVertices
    bottomCap := if c.mHasBottomBase then c.capRing 0 (-c.heightSign) else []
    topCap := if c.mHasTopBase then c.capRing c.mHeight c.heightSign else [] }

/-- Modelled from the spec: the cap test of section 4.2/4.3, "the resulting `(x,y)` lies
within radius `R` of the axis", in exact arithmetic. -/
def withinRadius (x y R : ℚ) : Bool :=
  decide (0 ≤ R) && decide (x * x + y * y ≤ R * R)

/-- Modelled from the spec: section 4.3, step 1 of the missing body of `traceRay`: the
roots in `t` of `x² + y² = r(z)²` along the ray.  Along the ray the radius is
`r0 + t * r1` with `r0 = r(O_z)` and `r1 = (D_z/height) * (topRadius - baseRadius)`, so the
equation is `a t² + b t + c = 0`; with `a = 0` it is linear, and with `a = b = 0` it has
no isolated root. -/
def lateralRoots (sqrt : ℚ → ℚ) (c : CCylinder) (ray : Ray) : Except ArithError (List ℚ) :=
  match c.radiusAt ray.oz, fdiv ray.dz c.mHeight with
  | Except.error e, _ => Except.error e
  | Except.ok _, Except.error e => Except.error e
  | Except.ok r0, Except.ok q =>
    let r1 := q * (c.mTopRadius - c.mBaseRadius)
    let a := ray.dx * ray.dx + ray.dy * ray.dy - r1 * r1
    let b := 2 * (ray.ox * ray.dx + ray.oy * ray.dy - r0 * r1)
    let c0 := ray.ox * ray.ox + ray.oy * ray.oy - r0 * r0
    Except.ok
      (if a = 0 then (if b = 0 then [] else [-c0 / b])
       else if b * b - 4 * a * c0 < 0 then []
       else [(-b - sqrt (b * b - 4 * a * c0)) / (2 * a),
             (-b + sqrt (b * b - 4 * a * c0)) / (2 * a)])

/-- Modelled from the spec: section 4.3, step 2 of the missing body of `traceRay`: the hit
of the ray with the cap in the plane `z = zPlane`, accepted when it is not behind the
origin and lies within radius `R` of the axis. -/
def capHit (ray : Ray) (zPlane R : ℚ) : List ℚ :=
  if ray.dz = 0 then []
  else if decide (0 ≤ (zPlane - ray.oz) / ray.dz) &&
      withinRadius (ray.ox + (zPlane - ray.oz) / ray.dz * ray.dx)
        (ray.oy + (zPlane - ray.oz) / ray.dz * ray.dy) R
    then [(zPlane - ray.oz) / ray.dz]
  else []

/-- Modelled from the spec: section 4.3, step 3 of the missing body of `traceRay`: the
smallest of the accepted candidates, or none. -/
def smallest : List ℚ → Option ℚ
  | [] => none
  | t :: ts =>
    match smallest ts with
    | none => some t
    | some m => some (min t m)

/-- Modelled from the spec: `traceRay`, whose body is not in the header (section 4.3), on a
ray already in the local frame: the lateral roots that are not behind the origin and pass
the `reachesHeight` check, the bottom cap hit when `hasBottomBase`, the top cap hit when
`hasTopBase`; the result is the smallest accepted `t` (the hit distance), or no
intersection. -/
def traceRay (sqrt : ℚ → ℚ) (c : CCylinder) (ray : Ray) : Except ArithError (Option ℚ) :=
  match lateralRoots sqrt c ray with
  | Except.error e => Except.error e
  | Except.ok roots =>
    Except.ok (smallest
      ((roots.filter fun t => decide (0 ≤ t) && c.reachesHeight (ray.oz + t * ray.dz)) ++
        (if c.mHasBottomBase then capHit ray 0 c.mBaseRadius else []) ++
        (if c.mHasTopBase then capHit ray c.mHeight c.mTopRadius else [])))

end CCylinder

/-! ## Auxiliary lemmas -/

theorem fdiv_of_ne_zero (a b : ℚ) (hb : b ≠ 0) : fdiv a b = Except.ok (a / b) := by
  simp [fdiv, hb]

theorem fdiv_zero_divisor (a : ℚ) : fdiv a 0 = Except.error ArithError.divByZero := by
  simp [fdiv]

theorem CCylinder.reachesHeight_iff (c : CCylinder) (Z : ℚ) :
    c.reachesHeight Z = true ↔
      (c.mHeight < 0 ∧ c.mHeight ≤ Z ∧ Z ≤ 0) ∨ (0 ≤ c.mHeight ∧ 0 ≤ Z ∧ Z ≤ c.mHeight) := by
  unfold CCylinder.reachesHeight
  by_cases h : c.mHeight < 0
  · rw [if_pos h, Bool.and_eq_true, decide_eq_true_eq, decide_eq_true_eq]
    constructor
    · intro hz
      exact Or.inl ⟨h, hz⟩
    · rintro (⟨_, hz⟩ | ⟨h0, _⟩)
      · exact hz
      · exact absurd h (not_lt.mpr h0)
  · rw [if_neg h, Bool.and_eq_true, decide_eq_true_eq, decide_eq_true_eq]
    constructor
    · intro hz
      exact Or.inr ⟨not_lt.mp h, hz.2, hz.1⟩
    · rintro (⟨h0, _⟩ | ⟨_, hz⟩)
      · exact absurd h0 h
      · exact ⟨hz.2, hz.1⟩

theorem CCylinder.getRadius_of_not_reaches (c : CCylinder) (Z r : ℚ)
    (h : c.reachesHeight Z = false) : c.getRadius Z r = (false, Except.ok r) := by
  simp [CCylinder.getRadius, h]

theorem CCylinder.getRadius_of_reaches (c : CCylinder) (Z r : ℚ)
    (h : c.reachesHeight Z = true) (hh : c.mHeight ≠ 0) :
    c.getRadius Z r =
      (true, Except.ok ((Z / c.mHeight) * (c.mTopRadius - c.mBaseRadius) + c.mBaseRadius)) := by
  simp [CCylinder.getRadius, h, fdiv_of_ne_zero Z c.mHeight hh]

theorem CCylinder.getRadius_zero_height (c : CCylinder) (Z r : ℚ)
    (h : c.reachesHeight Z = true) (hh : c.mHeight = 0) :
    c.getRadius Z r = (true, Except.error ArithError.divByZero) := by
  simp [CCylinder.getRadius, h, hh, fdiv_zero_divisor]

theorem CCylinder.getRadius_flag (c : CCylinder) (Z r : ℚ) :
    (c.getRadius Z r).1 = c.reachesHeight Z := by
  unfold CCylinder.getRadius
  cases c.reachesHeight Z <;> rfl

theorem CCylinder.getRadius_error_iff (c : CCylinder) (Z r : ℚ) :
    (c.getRadius Z r).2 = Except.error ArithError.divByZero ↔ c.mHeight = 0 ∧ Z = 0 := by
  constructor
  · intro he
    by_cases hr : c.reachesHeight Z = true
    · by_cases hh : c.mHeight = 0
      · refine ⟨hh, ?_⟩
        rcases (c.reachesHeight_iff Z).mp hr with ⟨hneg, _, _⟩ | ⟨_, h0, hle⟩
        · rw [hh] at hneg
          exact absurd hneg (lt_irrefl 0)
        · rw [hh] at hle
          exact le_antisymm hle h0
      · rw [c.getRadius_of_reaches Z r hr hh] at he
        cases he
    · rw [c.getRadius_of_not_reaches Z r (Bool.eq_false_iff.mpr hr)] at he
      cases he
  · rintro ⟨hh, hz⟩
    have hr : c.reachesHeight Z = true := by
      rw [c.reachesHeight_iff Z, hh, hz]
      exact Or.inr ⟨le_refl 0, le_refl 0, le_refl 0⟩
    rw [c.getRadius_zero_height Z r hr hh]

theorem CCylinder.reachesHeight_zero (c : CCylinder) : c.reachesHeight 0 = true := by
  rw [c.reachesHeight_iff 0]
  rcases lt_or_le c.mHeight 0 with hneg | hpos
  · exact Or.inl ⟨hneg, hneg.le, le_refl 0⟩
  · exact Or.inr ⟨hpos, le_refl 0, hpos⟩

theorem CCylinder.reachesHeight_height (c : CCylinder) : c.reachesHeight c.mHeight = true := by
  rw [c.reachesHeight_iff c.mHeight]
  rcases lt_or_le c.mHeight 0 with hneg | hpos
  · exact Or.inl ⟨hneg, le_refl _, hneg.le⟩
  · exact Or.inr ⟨hpos, hpos, le_refl _⟩

theorem toUInt32_of_nonneg (i : Int) (h0 : 0 ≤ i) (h1 : i < 2 ^ 31) :
    ((toUInt32 i : Nat) : Int) = i := by
  unfold toUInt32
  have hlt : i < (2 ^ 32 : Int) := lt_trans h1 (by norm_num)
  rw [Int.emod_eq_of_lt h0 hlt, Int.toNat_of_nonneg h0]

theorem toUInt32_ten : toUInt32 10 = 10 := by
  decide

theorem toUInt32_cast (i : Int) : ((toUInt32 i : Nat) : Int) = i % 2 ^ 32 := by
  unfold toUInt32
  exact Int.toNat_of_nonneg (Int.emod_nonneg i (by norm_num))

theorem toUInt32_neg_one : toUInt32 (-1) = 4294967295 := by
  decide

theorem CCylinder.lateralVertices_length (c : CCylinder) :
    c.lateralVertices.length = (c.mStacks + 1) * c.mSlices := by
  unfold CCylinder.lateralVertices
  rw [List.length_flatMap]
  have hconst : (List.map
      (List.length ∘ fun k =>
        List.map (fun i => c.lateralVertex k i) (List.range c.mSlices))
      (List.range (c.mStacks + 1))) =
      List.replicate (c.mStacks + 1) c.mSlices := by
    apply List.ext_getElem
    · simp
    · intro n h1 h2
      simp
  rw [hconst, List.sum_const_nat]

theorem CCylinder.capRing_length (c : CCylinder) (Z normalZ : ℚ) :
    (c.capRing Z normalZ).length = c.mSlices := by
  unfold CCylinder.capRing
  rw [List.length_map, List.length_range]

theorem CCylinder.lateralRoots_axis_parallel (sqrt : ℚ → ℚ) (c : CCylinder)
    (ox oy oz dz : ℚ) (hcyl : c.mBaseRadius = c.mTopRadius) (hh : c.mHeight ≠ 0) :
    c.lateralRoots sqrt ⟨ox, oy, oz, 0, 0, dz⟩ = Except.ok [] := by
  simp [CCylinder.lateralRoots, CCylinder.radiusAt, fdiv, hh, hcyl]

theorem CCylinder.capHit_axis_up (ox oy oz zPlane R : ℚ) (hR : 0 < R)
    (hd : ox * ox + oy * oy < R * R) :
    CCylinder.capHit ⟨ox, oy, oz, 0, 0, 1⟩ zPlane R =
      if oz ≤ zPlane then [zPlane - oz] else [] := by
  unfold CCylinder.capHit CCylinder.withinRadius
  simp only [one_ne_zero, if_false, div_one, mul_zero, add_zero]
  by_cases hz : oz ≤ zPlane
  · simp [hz, hR.le, hd.le]
  · simp [hz]

/-! ## Radius at an axial coordinate -/

/-- C1 (as amended): for every cylinder state and every `Z` with `reachesHeight(Z)` true,
`getRadius(Z, r)` returns `true`, and when `height ≠ 0` it sets `r` to
`baseRadius + (Z/height) * (topRadius - baseRadius)` in exact arithmetic. -/
theorem getRadius_interpolates (c : CCylinder) (Z r : ℚ) (hZ : c.reachesHeight Z = true) :
    (c.getRadius Z r).1 = true ∧
      (c.getHeight ≠ 0 → (c.getRadius Z r).2 =
        Except.ok (c.getBottomRadius +
          (Z / c.getHeight) * (c.getTopRadius - c.getBottomRadius))) := by
  refine ⟨by rw [c.getRadius_flag Z r, hZ], ?_⟩
  intro hh
  rw [c.getRadius_of_reaches Z r hZ hh]
  simp only [CCylinder.getBottomRadius, CCylinder.getTopRadius, CCylinder.getHeight]
  rw [add_comm]

/-- Witness of C1: the truncated cone of radii 1 and 3 and height 2 has radius 2 at
`Z = 1`. -/
theorem getRadius_interpolates_witness :
    (CCylinder.Create 1 3 2 10 10).reachesHeight 1 = true ∧
      ((CCylinder.Create 1 3 2 10 10).getRadius 1 0).1 = true ∧
      ((CCylinder.Create 1 3 2 10 10).getRadius 1 0).2 = Except.ok 2 := by
  have hZ : (CCylinder.Create 1 3 2 10 10).reachesHeight 1 = true := by
    simp [CCylinder.Create, CCylinder.mk5, CCylinder.reachesHeight]
  have h := getRadius_interpolates (CCylinder.Create 1 3 2 10 10) 1 0 hZ
  refine ⟨hZ, h.1, ?_⟩
  rw [h.2 (by simp [CCylinder.Create, CCylinder.mk5, CCylinder.getHeight])]
  simp only [CCylinder.Create, CCylinder.mk5, CCylinder.getBottomRadius,
    CCylinder.getTopRadius, CCylinder.getHeight]
  norm_num

/-- Counterexample to C1 as stated: on the zero-height cylinder of radii 1 and 2 the
coordinate `Z = 0` is accepted by `reachesHeight`, yet `getRadius(0, r)` does not set `r`
to an interpolated value: the quotient `Z/height` has a zero divisor. -/
theorem getRadius_interpolates_fails_at_zero_height :
    (CCylinder.Create 1 2 0 10 10).reachesHeight 0 = true ∧
      ((CCylinder.Create 1 2 0 10 10).getRadius 0 0).2 = Except.error ArithError.divByZero ∧
      ((CCylinder.Create 1 2 0 10 10).getRadius 0 0).2 ≠
        Except.ok ((CCylinder.Create 1 2 0 10 10).getBottomRadius +
          (0 / (CCylinder.Create 1 2 0 10 10).getHeight) *
            ((CCylinder.Create 1 2 0 10 10).getTopRadius -
              (CCylinder.Create 1 2 0 10 10).getBottomRadius)) := by
  have h1 : (CCylinder.Create 1 2 0 10 10).reachesHeight 0 = true := by
    simp [CCylinder.Create, CCylinder.mk5, CCylinder.reachesHeight]
  have h2 : ((CCylinder.Create 1 2 0 10 10).getRadius 0 0).2 =
      Except.error ArithError.divByZero := by
    rw [CCylinder.getRadius_zero_height _ 0 0 h1 rfl]
  refine ⟨h1, h2, ?_⟩
  rw [h2]
  intro h
  cases h

/-- C2: `getRadius(Z, r)` returns `false` exactly when `reachesHeight(Z)` is false, and
whenever it returns `false` the output value is the caller's `r`, unchanged. -/
theorem getRadius_absent_iff (c : CCylinder) (Z r : ℚ) :
    ((c.getRadius Z r).1 = false ↔ c.reachesHeight Z = false) ∧
      (c.reachesHeight Z = false → (c.getRadius Z r).2 = Except.ok r) := by
  refine ⟨by rw [c.getRadius_flag Z r], ?_⟩
  intro hf
  rw [c.getRadius_of_not_reaches Z r hf]

/-- Witness of C2: on the unit cylinder, `Z = 2` is outside the axial domain and
`getRadius(2, r)` with `r = 7` returns `false` leaving `7`. -/
theorem getRadius_absent_iff_witness :
    (CCylinder.Create2 1 1).reachesHeight 2 = false ∧
      ((CCylinder.Create2 1 1).getRadius 2 7).1 = false ∧
      ((CCylinder.Create2 1 1).getRadius 2 7).2 = Except.ok 7 := by
  have h1 : (CCylinder.Create2 1 1).reachesHeight 2 = false := by
    simp [CCylinder.Create2, CCylinder.Create, CCylinder.mk5, CCylinder.reachesHeight]
  have h := getRadius_absent_iff (CCylinder.Create2 1 1) 2 7
  exact ⟨h1, h.1.mpr h1, h.2 h1⟩

/-! ## The axial domain -/

/-- C3: `reachesHeight(Z)` is true exactly when `min(0,h) ≤ Z ≤ max(0,h)`; for `h > 0`
the accepted set is the closed interval `[0, h]` and for `h < 0` it is `[h, 0]`. -/
theorem reachesHeight_iff_between (c : CCylinder) (Z : ℚ) :
    (c.reachesHeight Z = true ↔ min 0 c.mHeight ≤ Z ∧ Z ≤ max 0 c.mHeight) ∧
      (0 < c.mHeight → (c.reachesHeight Z = true ↔ 0 ≤ Z ∧ Z ≤ c.mHeight)) ∧
      (c.mHeight < 0 → (c.reachesHeight Z = true ↔ c.mHeight ≤ Z ∧ Z ≤ 0)) := by
  refine ⟨?_, ?_, ?_⟩
  · rw [c.reachesHeight_iff Z]
    constructor
    · rintro (⟨hneg, h1, h2⟩ | ⟨hpos, h1, h2⟩)
      · rw [min_eq_right hneg.le, max_eq_left hneg.le]
        exact ⟨h1, h2⟩
      · rw [min_eq_left hpos, max_eq_right hpos]
        exact ⟨h1, h2⟩
    · rintro ⟨h1, h2⟩
      rcases lt_or_le c.mHeight 0 with hneg | hpos
      · rw [min_eq_right hneg.le] at h1
        rw [max_eq_left hneg.le] at h2
        exact Or.inl ⟨hneg, h1, h2⟩
      · rw [min_eq_left hpos] at h1
        rw [max_eq_right hpos] at h2
        exact Or.inr ⟨hpos, h1, h2⟩
  · intro hpos
    rw [c.reachesHeight_iff Z]
    constructor
    · rintro (⟨hneg, _, _⟩ | ⟨_, h1, h2⟩)
      · exact absurd hneg (not_lt.mpr hpos.le)
      · exact ⟨h1, h2⟩
    · rintro ⟨h1, h2⟩
      exact Or.inr ⟨hpos.le, h1, h2⟩
  · intro hneg
    rw [c.reachesHeight_iff Z]
    constructor
    · rintro (⟨_, h1, h2⟩ | ⟨hpos, _, _⟩)
      · exact ⟨h1, h2⟩
      · exact absurd hneg (not_lt.mpr hpos)
    · rintro ⟨h1, h2⟩
      exact Or.inl ⟨hneg, h1, h2⟩

/-- Witness of C3: both end points of a cylinder of height `-2` are accepted. -/
theorem reachesHeight_iff_between_witness :
    (CCylinder.Create 1 1 (-2) 10 10).mHeight < 0 ∧
      (CCylinder.Create 1 1 (-2) 10 10).reachesHeight (-2) = true ∧
      (CCylinder.Create 1 1 (-2) 10 10).reachesHeight 0 = true := by
  have hneg : (CCylinder.Create 1 1 (-2) 10 10).mHeight < 0 := by
    simp [CCylinder.Create, CCylinder.mk5]
  have hm : (CCylinder.Create 1 1 (-2) 10 10).mHeight = -2 := rfl
  refine ⟨hneg, ?_, ?_⟩
  · apply ((reachesHeight_iff_between (CCylinder.Create 1 1 (-2) 10 10) (-2)).2.2 hneg).mpr
    rw [hm]
    norm_num
  · apply ((reachesHeight_iff_between (CCylinder.Create 1 1 (-2) 10 10) 0).2.2 hneg).mpr
    rw [hm]
    norm_num

/-- C4: `reachesHeight` is symmetric under sign flip: for every height `h` (zero
included) and every `Z`, `reachesHeight(Z)` on a cylinder of height `h` equals
`reachesHeight(-Z)` on a cylinder of height `-h`. -/
theorem reachesHeight_sign_flip (c₁ c₂ : CCylinder) (h Z : ℚ) :
    (c₁.setHeight h).reachesHeight Z = (c₂.setHeight (-h)).reachesHeight (-Z) := by
  rw [Bool.eq_iff_iff, CCylinder.reachesHeight_iff, CCylinder.reachesHeight_iff]
  simp only [CCylinder.setHeight]
  constructor
  · rintro (⟨hneg, h1, h2⟩ | ⟨hpos, h1, h2⟩)
    · exact Or.inr ⟨by linarith, by linarith, by linarith⟩
    · rcases eq_or_lt_of_le hpos with h0 | hlt
      · exact Or.inr ⟨by linarith, by linarith, by linarith⟩
      · exact Or.inl ⟨by linarith, by linarith, by linarith⟩
  · rintro (⟨hneg, h1, h2⟩ | ⟨hpos, h1, h2⟩)
    · exact Or.inr ⟨by linarith, by linarith, by linarith⟩
    · rcases eq_or_lt_of_le hpos with h0 | hlt
      · exact Or.inr ⟨by linarith, by linarith, by linarith⟩
      · exact Or.inl ⟨by linarith, by linarith, by linarith⟩

/-- C5 (as amended): the guarded-division error branch of `getRadius` is reached exactly
when `height = 0` and `Z = 0`; for `height ≠ 0` it is unreachable, while on a zero-height
cylinder the one accepted coordinate `Z = 0` evaluates `Z/height` with divisor `0`. -/
theorem getRadius_divByZero_iff (c : CCylinder) (Z r : ℚ) :
    (c.getRadius Z r).2 = Except.error ArithError.divByZero ↔ c.getHeight = 0 ∧ Z = 0 :=
  c.getRadius_error_iff Z r

/-- Counterexample to C5 as stated: with `height == 0` the accepted coordinate `Z = 0`
takes `getRadius` into its division with a zero divisor. -/
theorem getRadius_zero_height_divides_by_zero :
    ((CCylinder.Create2 1 1).setHeight 0).getHeight = 0 ∧
      ((CCylinder.Create2 1 1).setHeight 0).reachesHeight 0 = true ∧
      ((CCylinder.Create2 1 1).setHeight 0).getRadius 0 3 =
        (true, Except.error ArithError.divByZero) := by
  have h1 : ((CCylinder.Create2 1 1).setHeight 0).reachesHeight 0 = true := by
    simp [CCylinder.setHeight, CCylinder.reachesHeight]
  exact ⟨rfl, h1, CCylinder.getRadius_zero_height _ 0 3 h1 rfl⟩

/-! ## End radii and the stored parameters -/

/-- C6: for every cylinder with `height ≠ 0` (either sign), `getRadius(0)` succeeds with
`baseRadius` and `getRadius(height)` succeeds with `topRadius`; in particular a zero base
radius gives radius `0` at `Z = 0` and a zero top radius gives radius `0` at `Z = height`. -/
theorem getRadius_at_ends (c : CCylinder) (r : ℚ) (hh : c.getHeight ≠ 0) :
    c.getRadius 0 r = (true, Except.ok c.getBottomRadius) ∧
      c.getRadius c.getHeight r = (true, Except.ok c.getTopRadius) ∧
      (c.getBottomRadius = 0 → c.getRadius 0 r = (true, Except.ok 0)) ∧
      (c.getTopRadius = 0 → c.getRadius c.getHeight r = (true, Except.ok 0)) := by
  have hh' : c.mHeight ≠ 0 := hh
  have hb : c.getRadius 0 r = (true, Except.ok c.getBottomRadius) := by
    rw [c.getRadius_of_reaches 0 r c.reachesHeight_zero hh']
    simp [CCylinder.getBottomRadius]
  have ht : c.getRadius c.getHeight r = (true, Except.ok c.getTopRadius) := by
    unfold CCylinder.getHeight
    rw [c.getRadius_of_reaches c.mHeight r c.reachesHeight_height hh', div_self hh']
    simp [CCylinder.getTopRadius]
  refine ⟨hb, ht, ?_, ?_⟩
  · intro h0
    rw [hb, h0]
  · intro h0
    rw [ht, h0]

/-- Witness of C6: the cone of base radius 3, top radius 0 and height `-2`. -/
theorem getRadius_at_ends_witness :
    (CCylinder.Create 3 0 (-2) 10 10).getRadius 0 5 = (true, Except.ok 3) ∧
      (CCylinder.Create 3 0 (-2) 10 10).getRadius (-2) 5 = (true, Except.ok 0) := by
  have h := getRadius_at_ends (CCylinder.Create 3 0 (-2) 10 10) 5
    (by simp [CCylinder.Create, CCylinder.mk5, CCylinder.getHeight])
  exact ⟨h.1, h.2.1⟩

/-- C7: `setRadius(r)` makes both radii equal to `r`, and (for `height ≠ 0`) the radius
at every accepted `Z` is then exactly `r`, independent of `Z`. -/
theorem setRadius_true_cylinder (c : CCylinder) (radius : ℚ) :
    (c.setRadius radius).getBottomRadius = radius ∧
      (c.setRadius radius).getTopRadius = radius ∧
      (c.getHeight ≠ 0 → ∀ Z r : ℚ, (c.setRadius radius).reachesHeight Z = true →
        (c.setRadius radius).getRadius Z r = (true, Except.ok radius)) := by
  refine ⟨rfl, rfl, ?_⟩
  intro hh Z r hZ
  have hh' : (c.setRadius radius).mHeight ≠ 0 := hh
  rw [(c.setRadius radius).getRadius_of_reaches Z r hZ hh']
  simp [CCylinder.setRadius]

/-- Witness of C7: a truncated cone of height 4 turned into a cylinder of radius 5,
queried at `Z = 3`. -/
theorem setRadius_true_cylinder_witness :
    ((CCylinder.Create 1 2 4 10 10).setRadius 5).getRadius 3 0 = (true, Except.ok 5) :=
  (setRadius_true_cylinder (CCylinder.Create 1 2 4 10 10) 5).2.2
    (by simp [CCylinder.Create, CCylinder.mk5, CCylinder.getHeight]) 3 0
    (by simp [CCylinder.Create, CCylinder.mk5, CCylinder.setRadius, CCylinder.reachesHeight]
        norm_num)

/-- C8: `setRadii(bottom, top)` stores its first argument as the bottom radius and its
second as the top radius. -/
theorem setRadii_getters (c : CCylinder) (bottom top : ℚ) :
    (c.setRadii bottom top).getBottomRadius = bottom ∧
      (c.setRadii bottom top).getTopRadius = top :=
  ⟨rfl, rfl⟩

/-- C9: `setHasBases(top, bottom)` stores its first argument as the top-base flag and its
second as the bottom-base flag, whatever the flags were before. -/
theorem setHasBases_getters (c : CCylinder) (top bottom : Bool) :
    (c.setHasBases top bottom).hasTopBase = top ∧
      (c.setHasBases top bottom).hasBottomBase = bottom :=
  ⟨rfl, rfl⟩

/-- C10: `Create(baseRadius, topRadius, height, slices, stacks)` yields an object whose
getters return the arguments (the counts for non-negative `int` values) with both bases
enabled, and the omitted arguments default to `height = 1`, `slices = 10`, `stacks = 10`. -/
theorem Create_getters (baseRadius topRadius height : ℚ) (slices nstacks : Int)
    (hs0 : 0 ≤ slices) (hs1 : slices < 2 ^ 31) (hk0 : 0 ≤ nstacks) (hk1 : nstacks < 2 ^ 31) :
    ((CCylinder.Create baseRadius topRadius height slices nstacks).getBottomRadius = baseRadius ∧
      (CCylinder.Create baseRadius topRadius height slices nstacks).getTopRadius = topRadius ∧
      (CCylinder.Create baseRadius topRadius height slices nstacks).getHeight = height ∧
      ((CCylinder.Create baseRadius topRadius height slices nstacks).getSlicesCount : Int)
        = slices ∧
      ((CCylinder.Create baseRadius topRadius height slices nstacks).getStacksCount : Int)
        = nstacks ∧
      (CCylinder.Create baseRadius topRadius height slices nstacks).hasTopBase = true ∧
      (CCylinder.Create baseRadius topRadius height slices nstacks).hasBottomBase = true) ∧
    ((CCylinder.Create2 baseRadius topRadius).getBottomRadius = baseRadius ∧
      (CCylinder.Create2 baseRadius topRadius).getTopRadius = topRadius ∧
      (CCylinder.Create2 baseRadius topRadius).getHeight = 1 ∧
      (CCylinder.Create2 baseRadius topRadius).getSlicesCount = 10 ∧
      (CCylinder.Create2 baseRadius topRadius).getStacksCount = 10 ∧
      (CCylinder.Create2 baseRadius topRadius).hasTopBase = true ∧
      (CCylinder.Create2 baseRadius topRadius).hasBottomBase = true) ∧
    ((CCylinder.Create3 baseRadius topRadius height).getHeight = height ∧
      (CCylinder.Create3 baseRadius topRadius height).getSlicesCount = 10 ∧
      (CCylinder.Create3 baseRadius topRadius height).getStacksCount = 10) ∧
    (((CCylinder.Create4 baseRadius topRadius height slices).getSlicesCount : Int) = slices ∧
      (CCylinder.Create4 baseRadius topRadius height slices).getStacksCount = 10) :=
  ⟨⟨rfl, rfl, rfl, toUInt32_of_nonneg slices hs0 hs1, toUInt32_of_nonneg nstacks hk0 hk1,
      rfl, rfl⟩,
    ⟨rfl, rfl, rfl, toUInt32_ten, toUInt32_ten, rfl, rfl⟩,
    ⟨rfl, toUInt32_ten, toUInt32_ten⟩,
    ⟨toUInt32_of_nonneg slices hs0 hs1, toUInt32_ten⟩⟩

/-- Witness of C10: `Create(2, 3, 5, 12, 7)`. -/
theorem Create_getters_witness :
    (CCylinder.Create 2 3 5 12 7).getBottomRadius = 2 ∧
      (CCylinder.Create 2 3 5 12 7).getTopRadius = 3 ∧
      (CCylinder.Create 2 3 5 12 7).getHeight = 5 ∧
      ((CCylinder.Create 2 3 5 12 7).getSlicesCount : Int) = 12 ∧
      ((CCylinder.Create 2 3 5 12 7).getStacksCount : Int) = 7 ∧
      (CCylinder.Create 2 3 5 12 7).hasTopBase = true ∧
      (CCylinder.Create 2 3 5 12 7).hasBottomBase = true :=
  (Create_getters 2 3 5 12 7 (by decide) (by decide) (by decide) (by decide)).1

/-! ## The parameter store -/

/-- C11: no setter validates or clamps: `setRadius`, `setRadii` and `setHeight` store every
value, `setSlicesCount` and `setStacksCount` store every `uint32_t` value, and the matching
getter returns exactly what was passed, including a zero count, a zero height and a
negative radius. -/
theorem setters_store_verbatim (c : CCylinder) (radius bottom top height : ℚ)
    (slices nstacks : Nat) :
    ((c.setRadius radius).getBottomRadius = radius ∧
      (c.setRadius radius).getTopRadius = radius) ∧
    ((c.setRadii bottom top).getBottomRadius = bottom ∧
      (c.setRadii bottom top).getTopRadius = top) ∧
    (c.setHeight height).getHeight = height ∧
    (slices < 2 ^ 32 → (c.setSlicesCount slices).getSlicesCount = slices) ∧
    (nstacks < 2 ^ 32 → (c.setStacksCount nstacks).getStacksCount = nstacks) ∧
    (c.setSlicesCount 0).getSlicesCount = 0 ∧
    (c.setStacksCount 0).getStacksCount = 0 ∧
    (c.setHeight 0).getHeight = 0 ∧
    ((c.setRadius (-1)).getBottomRadius = -1 ∧ (c.setRadius (-1)).getTopRadius = -1) :=
  ⟨⟨rfl, rfl⟩, ⟨rfl, rfl⟩, rfl, fun h => Nat.mod_eq_of_lt h, fun h => Nat.mod_eq_of_lt h,
    rfl, rfl, rfl, ⟨rfl, rfl⟩⟩

/-- Witness of C11: the largest `uint32_t` count and a single stack are stored as given. -/
theorem setters_store_verbatim_witness :
    ((CCylinder.Create2 1 1).setSlicesCount 4294967295).getSlicesCount = 4294967295 ∧
      ((CCylinder.Create2 1 1).setStacksCount 1).getStacksCount = 1 :=
  ⟨(setters_store_verbatim (CCylinder.Create2 1 1) 0 0 0 0 4294967295 1).2.2.2.1 (by decide),
    (setters_store_verbatim (CCylinder.Create2 1 1) 0 0 0 0 4294967295 1).2.2.2.2.1
      (by decide)⟩

/-- C12: each setter leaves every field it does not name unchanged: `setRadius` and
`setRadii` keep the height, both counts and both flags; `setHeight` keeps the radii, the
counts and the flags; `setSlicesCount` keeps everything but the slice count;
`setStacksCount` everything but the stack count; `setHasBases` everything but the flags. -/
theorem setters_frame (c : CCylinder) (radius bottom top height : ℚ) (slices nstacks : Nat)
    (capTop capBottom : Bool) :
    ((c.setRadius radius).getHeight = c.getHeight ∧
      (c.setRadius radius).getSlicesCount = c.getSlicesCount ∧
      (c.setRadius radius).getStacksCount = c.getStacksCount ∧
      (c.setRadius radius).hasTopBase = c.hasTopBase ∧
      (c.setRadius radius).hasBottomBase = c.hasBottomBase) ∧
    ((c.setRadii bottom top).getHeight = c.getHeight ∧
      (c.setRadii bottom top).getSlicesCount = c.getSlicesCount ∧
      (c.setRadii bottom top).getStacksCount = c.getStacksCount ∧
      (c.setRadii bottom top).hasTopBase = c.hasTopBase ∧
      (c.setRadii bottom top).hasBottomBase = c.hasBottomBase) ∧
    ((c.setHeight height).getBottomRadius = c.getBottomRadius ∧
      (c.setHeight height).getTopRadius = c.getTopRadius ∧
      (c.setHeight height).getSlicesCount = c.getSlicesCount ∧
      (c.setHeight height).getStacksCount = c.getStacksCount ∧
      (c.setHeight height).hasTopBase = c.hasTopBase ∧
      (c.setHeight height).hasBottomBase = c.hasBottomBase) ∧
    ((c.setSlicesCount slices).getBottomRadius = c.getBottomRadius ∧
      (c.setSlicesCount slices).getTopRadius = c.getTopRadius ∧
      (c.setSlicesCount slices).getHeight = c.getHeight ∧
      (c.setSlicesCount slices).getStacksCount = c.getStacksCount ∧
      (c.setSlicesCount slices).hasTopBase = c.hasTopBase ∧
      (c.setSlicesCount slices).hasBottomBase = c.hasBottomBase) ∧
    ((c.setStacksCount nstacks).getBottomRadius = c.getBottomRadius ∧
      (c.setStacksCount nstacks).getTopRadius = c.getTopRadius ∧
      (c.setStacksCount nstacks).getHeight = c.getHeight ∧
      (c.setStacksCount nstacks).getSlicesCount = c.getSlicesCount ∧
      (c.setStacksCount nstacks).hasTopBase = c.hasTopBase ∧
      (c.setStacksCount nstacks).hasBottomBase = c.hasBottomBase) ∧
    ((c.setHasBases capTop capBottom).getBottomRadius = c.getBottomRadius ∧
      (c.setHasBases capTop capBottom).getTopRadius = c.getTopRadius ∧
      (c.setHasBases capTop capBottom).getHeight = c.getHeight ∧
      (c.setHasBases capTop capBottom).getSlicesCount = c.getSlicesCount ∧
      (c.setHasBases capTop capBottom).getStacksCount = c.getStacksCount) :=
  ⟨⟨rfl, rfl, rfl, rfl, rfl⟩, ⟨rfl, rfl, rfl, rfl, rfl⟩, ⟨rfl, rfl, rfl, rfl, rfl, rfl⟩,
    ⟨rfl, rfl, rfl, rfl, rfl, rfl⟩, ⟨rfl, rfl, rfl, rfl, rfl, rfl⟩,
    ⟨rfl, rfl, rfl, rfl, rfl⟩⟩

/-! ## Shape of the radius along the axis -/

/-- C15: for `height ≠ 0`, `Z1`, `Z2` in the axial domain and `lam` in `[0,1]`, the point
`lam*Z1 + (1-lam)*Z2` is in the axial domain, `getRadius` succeeds there, and its result is
`lam*getRadius(Z1) + (1-lam)*getRadius(Z2)` in exact arithmetic. -/
theorem getRadius_affine (c : CCylinder) (Z1 Z2 lam r : ℚ) (hh : c.getHeight ≠ 0)
    (h1 : c.reachesHeight Z1 = true) (h2 : c.reachesHeight Z2 = true)
    (hl0 : 0 ≤ lam) (hl1 : lam ≤ 1) :
    c.reachesHeight (lam * Z1 + (1 - lam) * Z2) = true ∧
      ∃ r1 r2 : ℚ, c.getRadius Z1 r = (true, Except.ok r1) ∧
        c.getRadius Z2 r = (true, Except.ok r2) ∧
        c.getRadius (lam * Z1 + (1 - lam) * Z2) r =
          (true, Except.ok (lam * r1 + (1 - lam) * r2)) := by
  have hh' : c.mHeight ≠ 0 := hh
  have hm : 0 ≤ 1 - lam := sub_nonneg.mpr hl1
  have hZ : c.reachesHeight (lam * Z1 + (1 - lam) * Z2) = true := by
    rw [c.reachesHeight_iff]
    rcases (c.reachesHeight_iff Z1).mp h1 with ⟨hneg, a1, a2⟩ | ⟨hpos, a1, a2⟩
    · rcases (c.reachesHeight_iff Z2).mp h2 with ⟨_, b1, b2⟩ | ⟨hpos, _, _⟩
      · refine Or.inl ⟨hneg, ?_, ?_⟩
        · nlinarith [mul_nonneg hl0 (sub_nonneg.mpr a1), mul_nonneg hm (sub_nonneg.mpr b1)]
        · nlinarith [mul_nonneg hl0 (sub_nonneg.mpr a2), mul_nonneg hm (sub_nonneg.mpr b2)]
      · exact absurd hneg (not_lt.mpr hpos)
    · rcases (c.reachesHeight_iff Z2).mp h2 with ⟨hneg, _, _⟩ | ⟨_, b1, b2⟩
      · exact absurd hneg (not_lt.mpr hpos)
      · refine Or.inr ⟨hpos, ?_, ?_⟩
        · nlinarith [mul_nonneg hl0 a1, mul_nonneg hm b1]
        · nlinarith [mul_nonneg hl0 (sub_nonneg.mpr a2), mul_nonneg hm (sub_nonneg.mpr b2)]
  refine ⟨hZ, _, _, c.getRadius_of_reaches Z1 r h1 hh', c.getRadius_of_reaches Z2 r h2 hh', ?_⟩
  rw [c.getRadius_of_reaches _ r hZ hh']
  congr 2
  field_simp
  ring

/-- Witness of C15: on the truncated cone of radii 1 and 3 and height 2, the midpoint of
`Z1 = 0` and `Z2 = 2` is accepted. -/
theorem getRadius_affine_witness :
    (CCylinder.Create 1 3 2 10 10).reachesHeight ((1 / 2) * 0 + (1 - 1 / 2) * 2) = true :=
  (getRadius_affine (CCylinder.Create 1 3 2 10 10) 0 2 (1 / 2) 0
    (by simp [CCylinder.Create, CCylinder.mk5, CCylinder.getHeight])
    (CCylinder.reachesHeight_zero _) (CCylinder.reachesHeight_height _)
    (by norm_num) (by norm_num)).1

/-- C17: the axial domain is never empty: `reachesHeight(0)` and `reachesHeight(h)` hold
for every height `h`; and when `h = 0` the domain is the single point `Z = 0`. -/
theorem reachesHeight_nonempty (c : CCylinder) (Z : ℚ) :
    c.reachesHeight 0 = true ∧ c.reachesHeight c.getHeight = true ∧
      (c.getHeight = 0 → (c.reachesHeight Z = true ↔ Z = 0)) := by
  refine ⟨c.reachesHeight_zero, c.reachesHeight_height, ?_⟩
  intro h0
  have h0' : c.mHeight = 0 := h0
  rw [c.reachesHeight_iff Z, h0']
  constructor
  · rintro (⟨hneg, _, _⟩ | ⟨_, a1, a2⟩)
    · exact absurd hneg (lt_irrefl 0)
    · exact le_antisymm a2 a1
  · intro hz
    rw [hz]
    exact Or.inr ⟨le_refl 0, le_refl 0, le_refl 0⟩

/-- Witness of C17: on a zero-height cylinder `Z = 1` is rejected and `Z = 0` accepted. -/
theorem reachesHeight_nonempty_witness :
    ((CCylinder.Create2 2 2).setHeight 0).reachesHeight 0 = true ∧
      ¬ ((CCylinder.Create2 2 2).setHeight 0).reachesHeight 1 = true := by
  refine ⟨(reachesHeight_nonempty ((CCylinder.Create2 2 2).setHeight 0) 1).1, ?_⟩
  rw [(reachesHeight_nonempty ((CCylinder.Create2 2 2).setHeight 0) 1).2.2 rfl]
  norm_num

/-- C18: `Create` converts its `int` counts to `uint32_t`: for every `int` `s` the stored
slice count (and likewise the stack count) is `s mod 2^32`; `-1` is stored as
`4294967295`, neither rejected nor clamped. -/
theorem Create_counts_mod (baseRadius topRadius height : ℚ) (slices nstacks : Int) :
    ((CCylinder.Create baseRadius topRadius height slices nstacks).getSlicesCount : Int)
        = slices % 2 ^ 32 ∧
      ((CCylinder.Create baseRadius topRadius height slices nstacks).getStacksCount : Int)
        = nstacks % 2 ^ 32 ∧
      (CCylinder.Create baseRadius topRadius height (-1) nstacks).getSlicesCount
        = 4294967295 ∧
      (CCylinder.Create baseRadius topRadius height slices (-1)).getStacksCount
        = 4294967295 :=
  ⟨toUInt32_cast slices, toUInt32_cast nstacks, toUInt32_neg_one, toUInt32_neg_one⟩

/-! ## Ray intersector and mesh generator -/

/-- C13 (as amended): for every true cylinder (`baseRadius = topRadius = r`) of height
`h ≠ 0` with the bottom cap enabled, and every ray of direction `(0,0,1)` (parallel to the
axis, towards `+z`) whose origin has `oz < 0` and lies at distance `d < r` from the axis,
provided the top cap is not met first (top cap disabled, or `h > 0`, or `h < oz`),
`traceRay` reports a hit at distance `-oz`, the distance from the origin to the plane
`z = 0`. -/
theorem traceRay_axis_parallel_hits_bottom_cap (sqrt : ℚ → ℚ) (c : CCylinder)
    (ox oy oz : ℚ) (hcyl : c.getBottomRadius = c.getTopRadius)
    (hcap : c.hasBottomBase = true) (hh : c.getHeight ≠ 0) (hoz : oz < 0)
    (hr : 0 < c.getBottomRadius)
    (hd : ox * ox + oy * oy < c.getBottomRadius * c.getBottomRadius)
    (htop : c.hasTopBase = false ∨ 0 < c.getHeight ∨ c.getHeight < oz) :
    c.traceRay sqrt ⟨ox, oy, oz, 0, 0, 1⟩ = Except.ok (some (-oz)) := by
  have hcyl' : c.mBaseRadius = c.mTopRadius := hcyl
  have hcap' : c.mHasBottomBase = true := hcap
  have hr' : 0 < c.mBaseRadius := hr
  have hd' : ox * ox + oy * oy < c.mBaseRadius * c.mBaseRadius := hd
  have hrt : 0 < c.mTopRadius := hcyl' ▸ hr'
  have hdt : ox * ox + oy * oy < c.mTopRadius * c.mTopRadius := hcyl' ▸ hd'
  unfold CCylinder.traceRay
  rw [c.lateralRoots_axis_parallel sqrt ox oy oz 1 hcyl' hh]
  simp only [List.filter_nil, List.nil_append, hcap', if_true]
  rw [CCylinder.capHit_axis_up ox oy oz 0 c.mBaseRadius hr' hd', if_pos hoz.le, zero_sub]
  rcases htop with hno | hpos | hlow
  · have hno' : c.mHasTopBase = false := hno
    simp [hno', CCylinder.smallest]
  · have hpos' : 0 < c.mHeight := hpos
    cases hT : c.mHasTopBase
    · simp [CCylinder.smallest]
    · rw [if_pos rfl, CCylinder.capHit_axis_up ox oy oz c.mHeight c.mTopRadius hrt hdt,
        if_pos (by linarith)]
      simp only [List.singleton_append, CCylinder.smallest]
      rw [min_eq_left (by linarith)]
  · have hlow' : c.mHeight < oz := hlow
    cases hT : c.mHasTopBase
    · simp [CCylinder.smallest]
    · rw [if_pos rfl, CCylinder.capHit_axis_up ox oy oz c.mHeight c.mTopRadius hrt hdt,
        if_neg (not_le.mpr hlow')]
      simp [CCylinder.smallest]

/-- Witness of C13: the default unit cylinder and the upward ray from `(1/2, 0, -3)`. -/
theorem traceRay_axis_parallel_hits_bottom_cap_witness :
    (CCylinder.Create2 1 1).traceRay Rat.sqrt ⟨1 / 2, 0, -3, 0, 0, 1⟩ =
      Except.ok (some (-(-3))) :=
  traceRay_axis_parallel_hits_bottom_cap Rat.sqrt (CCylinder.Create2 1 1) (1 / 2) 0 (-3)
    rfl rfl
    (by simp [CCylinder.Create2, CCylinder.Create, CCylinder.mk5, CCylinder.getHeight])
    (by norm_num)
    (by simp [CCylinder.Create2, CCylinder.Create, CCylinder.mk5, CCylinder.getBottomRadius])
    (by
      simp only [CCylinder.Create2, CCylinder.Create, CCylinder.mk5,
        CCylinder.getBottomRadius]
      norm_num)
    (Or.inr (Or.inl (by
      simp [CCylinder.Create2, CCylinder.Create, CCylinder.mk5, CCylinder.getHeight])))

/-- Counterexample to C13 as stated: on the default unit cylinder (bottom cap enabled) the
ray from `(0,0,-1)` with direction `(0,0,-1)` is parallel to the axis, starts below
`z = 0` on the axis, and has no intersection; on the cylinder of height `-1` with both
caps, the upward ray from `(0,0,-3)` hits the top cap at distance 2, not the plane `z = 0`
at distance 3; and on a cylinder of height `0` the radius formula of the lateral step
divides by the zero height. -/
theorem traceRay_axis_parallel_misses :
    (CCylinder.Create2 1 1).hasBottomBase = true ∧
      (CCylinder.Create2 1 1).traceRay Rat.sqrt ⟨0, 0, -1, 0, 0, -1⟩ = Except.ok none ∧
      (CCylinder.Create 1 1 (-1) 10 10).hasBottomBase = true ∧
      (CCylinder.Create 1 1 (-1) 10 10).traceRay Rat.sqrt ⟨0, 0, -3, 0, 0, 1⟩ =
        Except.ok (some 2) ∧
      (CCylinder.Create 1 1 0 10 10).traceRay Rat.sqrt ⟨0, 0, -3, 0, 0, 1⟩ =
        Except.error ArithError.divByZero := by
  refine ⟨rfl, ?_, rfl, ?_, ?_⟩
  · unfold CCylinder.traceRay
    rw [CCylinder.lateralRoots_axis_parallel Rat.sqrt _ 0 0 (-1) (-1) rfl
      (by simp [CCylinder.Create2, CCylinder.Create, CCylinder.mk5])]
    norm_num [CCylinder.Create2, CCylinder.Create, CCylinder.mk5, CCylinder.capHit,
      CCylinder.smallest]
  · unfold CCylinder.traceRay
    rw [CCylinder.lateralRoots_axis_parallel Rat.sqrt _ 0 0 (-3) 1 rfl
      (by simp [CCylinder.Create, CCylinder.mk5])]
    simp only [CCylinder.Create, CCylinder.mk5, List.filter_nil, List.nil_append, if_true]
    rw [CCylinder.capHit_axis_up 0 0 (-3) 0 1 (by norm_num) (by norm_num),
      CCylinder.capHit_axis_up 0 0 (-3) (-1) 1 (by norm_num) (by norm_num)]
    norm_num [CCylinder.smallest]
  · simp [CCylinder.traceRay, CCylinder.lateralRoots, CCylinder.radiusAt, fdiv,
      CCylinder.Create, CCylinder.mk5]

/-- C14: for every `sliceCount`, `stackCount` and pair of cap flags, the mesh emitted by
`render` has `(stackCount+1)*sliceCount` lateral vertices plus `sliceCount` vertices for
each enabled cap. -/
theorem render_vertex_counts (c : CCylinder) :
    c.render.lateral.length = (c.getStacksCount + 1) * c.getSlicesCount ∧
      c.render.bottomCap.length = (if c.hasBottomBase then c.getSlicesCount else 0) ∧
      c.render.topCap.length = (if c.hasTopBase then c.getSlicesCount else 0) ∧
      c.render.lateral.length + c.render.bottomCap.length + c.render.topCap.length =
        (c.getStacksCount + 1) * c.getSlicesCount +
          ((if c.hasBottomBase then 1 else 0) + (if c.hasTopBase then 1 else 0)) *
            c.getSlicesCount := by
  have hl : c.render.lateral.length = (c.getStacksCount + 1) * c.getSlicesCount :=
    c.lateralVertices_length
  have hb : c.render.bottomCap.length = (if c.hasBottomBase then c.getSlicesCount else 0) := by
    unfold CCylinder.render CCylinder.hasBottomBase CCylinder.getSlicesCount
    cases c.mHasBottomBase
    · rfl
    · exact c.capRing_length _ _
  have ht : c.render.topCap.length = (if c.hasTopBase then c.getSlicesCount else 0) := by
    unfold CCylinder.render CCylinder.hasTopBase CCylinder.getSlicesCount
    cases c.mHasTopBase
    · rfl
    · exact c.capRing_length _ _
  refine ⟨hl, hb, ht, ?_⟩
  rw [hl, hb, ht]
  cases c.hasBottomBase <;> cases c.hasTopBase <;> first | (simp; done) | (simp; ring)

end mrpt.opengl
